import Mathlib

set_option maxRecDepth 1000000

/-
Verification development for the environment engine and banded agent
controller of this repository.

The Python sources are shallowly embedded over exact rationals (Python
floats become ℚ; the claims settled here are either sign/branch robust or
explicitly concern exact replay identities that the source states up to
float determinism).  Transcendental helpers of numpy (`np.exp`, `np.sqrt`)
are threaded through as explicit function parameters; every theorem below
is independent of their values except where a nonnegativity fact about
`np.sqrt` is assumed as a hypothesis.  Integer grid indexing uses Python
semantics: `a % n` is the nonnegative remainder, and negative indices wrap
from the end of the axis, which for the index ranges reachable in the
sources coincides with the remainder map.
-/

namespace MDSim

attribute [local semireducible] Rat.add Rat.sub Rat.mul Rat.inv Rat.ofScientific

/-! ## Shared numeric helpers

`min` / `max` / `abs` are spelled out with `if` so that every definition
kernel-reduces on concrete rationals; they agree definitionally with the
lattice operations (bridge lemmas below the definitions). -/

def qmin (a b : ℚ) : ℚ := if a ≤ b then a else b

def qmax (a b : ℚ) : ℚ := if a ≤ b then b else a

def qabs (a : ℚ) : ℚ := if 0 ≤ a then a else -a

def imin (a b : ℤ) : ℤ := if a ≤ b then a else b

def imax (a b : ℤ) : ℤ := if a ≤ b then b else a

def iabs (a : ℤ) : ℤ := if 0 ≤ a then a else -a

/-- `np.clip(x, lo, hi)`: `max` then `min`, so `lo > hi` yields `hi`. -/
def clipQ (x lo hi : ℚ) : ℚ := qmin (qmax x lo) hi

/-- Wrap an integer index onto `Fin n` with the nonnegative remainder,
matching Python `i % n` (and Python negative indexing for `-n ≤ i < n`). -/
def wrapIdx {n : ℕ} (hn : 0 < n) (i : ℤ) : Fin n :=
  ⟨(i % (n : ℤ)).toNat, by
    have h0 : (0 : ℤ) < (n : ℤ) := by exact_mod_cast hn
    have h1 : 0 ≤ i % (n : ℤ) := Int.emod_nonneg i (ne_of_gt h0)
    have h2 : i % (n : ℤ) < (n : ℤ) := Int.emod_lt_of_pos i h0
    omega⟩

/-- Clamp an integer index onto `Fin n`: `min(max(i, 0), n - 1)`. -/
def clampIdx {n : ℕ} (hn : 0 < n) (i : ℤ) : Fin n :=
  ⟨(imin (imax i 0) ((n : ℤ) - 1)).toNat, by
    unfold imin imax
    split <;> split <;> omega⟩

/-! ## String constants of the sources -/

def sTemperature : String := "temperature"

def sHydration : String := "hydration"

def sVegetation : String := "vegetation"

def sMovementCost : String := "movement_cost"

def sCriticalHunger : String := "critical_hunger"

def sContent : String := "content"

def sFleePredator : String := "flee_predator"

def sHunger : String := "hunger"

def sThirst : String := "thirst"

def sFatigue : String := "fatigue"

def sThreat : String := "threat"

/-! ## Scenario fields and registry (`runner/registry.py`) -/

structure Coeffs where
  diffusion : ℚ
  vx : ℚ
  vy : ℚ
  decay : ℚ
  replenish : ℚ
deriving DecidableEq

structure FieldSpec where
  name : String
  lo : ℚ
  hi : ℚ
  coeffs : Coeffs
  derived : Bool
deriving DecidableEq

/-- Pass toggles of `dynamics.passes` as installed by `apply_defaults`.
The kernel code never reads them (see `stepKernels` below). -/
structure Passes where
  diffusion : Bool
  advection : Bool
  coupling : Bool
  decay : Bool
  replenishment : Bool
  derivedPass : Bool
  metrics : Bool
deriving DecidableEq

/-- `vegetation_profile` with the `.get` defaults used by `step_kernels`. -/
structure VegProfile where
  k : ℚ
  water_half : ℚ
  heat_optimum : ℚ
  heat_sigma : ℚ
  carrying_capacity : ℚ
deriving DecidableEq

def defaultVegProfile : VegProfile :=
  ⟨8/100, 35/100, 65/100, 18/100, 1⟩

/-- The scenario data consumed by the kernel/engine/hydrator code paths. -/
structure Scenario where
  width : ℕ
  height : ℕ
  wrapx : Bool
  wrapy : Bool
  fields : List FieldSpec
  veg : VegProfile
  passes : Passes

/-- Index of the last occurrence of `s` in `l`; Python dict comprehension
`{n: i for i, n in enumerate(names)}` keeps the last index for a repeated
key, which this mirrors. -/
def lastIdx : List String → String → Option ℕ
  | [], _ => none
  | n :: rest, s =>
    match lastIdx rest s with
    | some j => some (j + 1)
    | none => if n = s then some 0 else none

/-- Registry produced by `build_registry`; the Python dict of indices is
embedded as the lookup function `indices`. -/
structure RegistryR where
  names : List String
  indices : String → Option ℕ
  bounds : List (ℚ × ℚ)
  coeffs : List Coeffs
  derived : List Bool

/-- `build_registry(cfg)` over the ordered field list. -/
def buildRegistry (fields : List FieldSpec) : RegistryR :=
  { names := fields.map (fun f => f.name)
  , indices := fun s => lastIdx (fields.map (fun f => f.name)) s
  , bounds := fields.map (fun f => (f.lo, f.hi))
  , coeffs := fields.map (fun f => f.coeffs)
  , derived := fields.map (fun f => f.derived) }

/-- Lookup used inside `step_kernels`: `registry["indices"].get(name)`,
returned as a position into the field list. -/
def idxOfName (fields : List FieldSpec) (s : String) :
    Option (Fin fields.length) :=
  (List.finRange fields.length).reverse.find? (fun i => (fields.get i).name == s)

/-! ## Field tensor and kernel passes (`runner/kernels.py`) -/

/-- Tensor of shape `(h, w, f)`, float32 values embedded as ℚ. -/
def Tensor (h w f : ℕ) : Type := Fin h → Fin w → Fin f → ℚ

/-- One 2-D slice of the tensor. -/
def Grid (h w : ℕ) : Type := Fin h → Fin w → ℚ

/-- `laplacian5(arr, wrapx, wrapy)`: 5-point stencil with per-axis wrap or
edge replication. -/
def laplacian5 {h w : ℕ} (wrapx wrapy : Bool) (g : Grid h w) : Grid h w :=
  fun y x =>
    let ym1 : Fin h := if wrapy then wrapIdx y.pos ((y : ℤ) - 1) else clampIdx y.pos ((y : ℤ) - 1)
    let yp1 : Fin h := if wrapy then wrapIdx y.pos ((y : ℤ) + 1) else clampIdx y.pos ((y : ℤ) + 1)
    let xm1 : Fin w := if wrapx then wrapIdx x.pos ((x : ℤ) - 1) else clampIdx x.pos ((x : ℤ) - 1)
    let xp1 : Fin w := if wrapx then wrapIdx x.pos ((x : ℤ) + 1) else clampIdx x.pos ((x : ℤ) + 1)
    g ym1 x + g yp1 x + g y xm1 + g y xp1 - 4 * g y x

/-- `advect(arr, vx, vy, wrapx, wrapy)`: backward semi-Lagrangian with
bilinear interpolation; sample coordinates wrap (float `%`) or clamp to
`[0, axis - 1.001]` per axis. -/
def advect {h w : ℕ} (vx vy : ℚ) (wrapx wrapy : Bool) (g : Grid h w) : Grid h w :=
  fun y x =>
    let fx0 : ℚ := (x : ℚ) - vx
    let fy0 : ℚ := (y : ℚ) - vy
    let fx : ℚ := if wrapx then fx0 - (w : ℚ) * ⌊fx0 / (w : ℚ)⌋ else qmin (qmax fx0 0) ((w : ℚ) - 1001/1000)
    let fy : ℚ := if wrapy then fy0 - (h : ℚ) * ⌊fy0 / (h : ℚ)⌋ else qmin (qmax fy0 0) ((h : ℚ) - 1001/1000)
    let x0 : ℤ := ⌊fx⌋
    let y0 : ℤ := ⌊fy⌋
    let x1 : Fin w := if wrapx then wrapIdx x.pos (x0 + 1) else wrapIdx x.pos (imin (x0 + 1) ((w : ℤ) - 1))
    let y1 : Fin h := if wrapy then wrapIdx y.pos (y0 + 1) else wrapIdx y.pos (imin (y0 + 1) ((h : ℤ) - 1))
    let sx : ℚ := fx - (x0 : ℚ)
    let sy : ℚ := fy - (y0 : ℚ)
    let x0i : Fin w := wrapIdx x.pos x0
    let y0i : Fin h := wrapIdx y.pos y0
    (1 - sx) * (1 - sy) * g y0i x0i + sx * (1 - sy) * g y0i x1 +
      (1 - sx) * sy * g y1 x0i + sx * sy * g y1 x1

/-- Pass 1 of `step_kernels`: per non-derived field, diffusion (skipped when
`d = 0`) then advection (skipped when `vx = vy = 0`); each field reads only
its own slice. -/
def pass1 (cfg : Scenario) {h w : ℕ} (t : Tensor h w cfg.fields.length) :
    Tensor h w cfg.fields.length :=
  fun y x i =>
    let fs := cfg.fields.get i
    if fs.derived then t y x i
    else
      let g : Grid h w := fun y' x' => t y' x' i
      let d := fs.coeffs.diffusion
      let g1 : Grid h w :=
        if d ≠ 0 then fun y' x' => g y' x' + d * laplacian5 cfg.wrapx cfg.wrapy g y' x' else g
      let g2 : Grid h w :=
        if fs.coeffs.vx ≠ 0 ∨ fs.coeffs.vy ≠ 0 then advect fs.coeffs.vx fs.coeffs.vy cfg.wrapx cfg.wrapy g1 else g1
      g2 y x

/-- Evaporation coupling: applied whenever both `temperature` and
`hydration` are registered; the source never consults
`dynamics.passes.coupling`. -/
def evapPass (cfg : Scenario) {h w : ℕ} (t : Tensor h w cfg.fields.length) :
    Tensor h w cfg.fields.length :=
  match idxOfName cfg.fields sTemperature, idxOfName cfg.fields sHydration with
  | some ti, some hi =>
    fun y x i =>
      if i = hi then clipQ (t y x hi - (5/1000) * clipQ (t y x ti) 0 1) 0 1 else t y x i
  | _, _ => t

/-- Vegetation dynamics coupling; `expA` stands for `np.exp`, applied to the
exponent `-((T - opt) / (sigma + 1e-8))^2 / 2`. -/
def vegPass (expA : ℚ → ℚ) (cfg : Scenario) {h w : ℕ}
    (t : Tensor h w cfg.fields.length) : Tensor h w cfg.fields.length :=
  match idxOfName cfg.fields sVegetation, idxOfName cfg.fields sHydration,
      idxOfName cfg.fields sTemperature with
  | some vi, some hi, some ti =>
    fun y x i =>
      let H := t y x hi
      let T := t y x ti
      let V := t y x vi
      let sw := H / (H + cfg.veg.water_half + 1/100000000)
      let st := expA (-(1/2) * ((T - cfg.veg.heat_optimum) / (cfg.veg.heat_sigma + 1/100000000))^2)
      let growth := cfg.veg.k * V * (1 - V / (cfg.veg.carrying_capacity + 1/100000000)) * sw * st
      if i = vi then clipQ (V + growth) 0 1
      else if i = hi then clipQ (H - (1/2) * growth) 0 1
      else t y x i
  | _, _, _ => t

/-- Decay / replenish / clamp pass: per non-derived field
`f *= (1 - decay)` when `decay ≠ 0`, `f = clip(f + replenish, 0, 1)` when
`replenish ≠ 0`, then `f = clip(f, lo, hi)`. -/
def decayPass (cfg : Scenario) {h w : ℕ} (t : Tensor h w cfg.fields.length) :
    Tensor h w cfg.fields.length :=
  fun y x i =>
    let fs := cfg.fields.get i
    if fs.derived then t y x i
    else
      let a0 := t y x i
      let a1 := if fs.coeffs.decay ≠ 0 then a0 * (1 - fs.coeffs.decay) else a0
      let a2 := if fs.coeffs.replenish ≠ 0 then clipQ (a1 + fs.coeffs.replenish) 0 1 else a1
      clipQ a2 fs.lo fs.hi

/-- Derived `movement_cost` write:
`clip(0.3 + 0.5*vegetation + 0.2*(1 - hydration), 0, 1)`, with missing
source fields read as zero. Note the clip range is `[0, 1]`, not the
field's registered bounds. -/
def mcPass (cfg : Scenario) {h w : ℕ} (t : Tensor h w cfg.fields.length) :
    Tensor h w cfg.fields.length :=
  match idxOfName cfg.fields sMovementCost with
  | some mi =>
    fun y x i =>
      if i = mi then
        let hyd := match idxOfName cfg.fields sHydration with
          | some hj => t y x hj
          | none => 0
        let ve := match idxOfName cfg.fields sVegetation with
          | some vj => t y x vj
          | none => 0
        clipQ (3/10 + (1/2) * ve + (1/5) * (1 - hyd)) 0 1
      else t y x i
  | none => t

/-- `step_kernels(tensor, cfg, registry, wrapx, wrapy, noise_rng)`.  The
`noise_rng` argument of the source is unused by its body and is omitted;
`cfg.passes` is carried in the scenario but — exactly as in the source —
never consulted here. -/
def stepKernels (expA : ℚ → ℚ) (cfg : Scenario) {h w : ℕ}
    (t : Tensor h w cfg.fields.length) : Tensor h w cfg.fields.length :=
  mcPass cfg (decayPass cfg (vegPass expA cfg (evapPass cfg (pass1 cfg t))))

/-! ## Engine loop, delta journal, hydration (`runner/engine.py`,
`runner/hydrator.py`)

`assemble_initial_tensor` is a deterministic pure function of the scenario
and seeds; the engine and the hydrator both call it on the same frozen
scenario, so both are parametrised here by the one shared value `init` it
returns. -/

/-- In-memory tensor held by `run_headless` after `n` kernel steps;
`engTensor … (t+1)` is the tensor held after processing tick `t`. -/
def engTensor (expA : ℚ → ℚ) (cfg : Scenario) {h w : ℕ}
    (init : Tensor h w cfg.fields.length) : ℕ → Tensor h w cfg.fields.length :=
  fun n => (stepKernels expA cfg)^[n] init

/-- Per-cell content of the delta journal row emitted at tick `k`: derived
fields are skipped, and a change is journaled only when `|delta| > 1e-8`;
cells without a row contribute `0`. -/
def emittedDelta (expA : ℚ → ℚ) (cfg : Scenario) {h w : ℕ}
    (init : Tensor h w cfg.fields.length) (k : ℕ)
    (y : Fin h) (x : Fin w) (i : Fin cfg.fields.length) : ℚ :=
  if (cfg.fields.get i).derived then 0
  else
    let d := engTensor expA cfg init (k + 1) y x i - engTensor expA cfg init k y x i
    if 1/100000000 < qabs d then d else 0

/-- `hydrate_tick(run_dir, tick)` for a run of `n` processed ticks:
regenerate the initial tensor, add every journal row with `tick ≤ t`
(but only when `t > 0` — the source guard `tick > 0`), then clamp every
field to its registered bounds. -/
def hydrateTick (expA : ℚ → ℚ) (cfg : Scenario) {h w : ℕ}
    (init : Tensor h w cfg.fields.length) (n t : ℕ) :
    Tensor h w cfg.fields.length :=
  fun y x i =>
    let fs := cfg.fields.get i
    let base := init y x i
    let v :=
      if 0 < t then
        base + ∑ k in Finset.range (min (t + 1) n), emittedDelta expA cfg init k y x i
      else base
    clipQ v fs.lo fs.hi

/-- `replay_frame(run_dir, t, h, w, f)`: starts from `np.zeros`, adds every
journal row with `tick ≤ t`, and performs no clamp and no initial-state
regeneration. -/
def replayFrame (expA : ℚ → ℚ) (cfg : Scenario) {h w : ℕ}
    (init : Tensor h w cfg.fields.length) (n t : ℕ) :
    Tensor h w cfg.fields.length :=
  fun y x i =>
    0 + ∑ k in Finset.range (min (t + 1) n), emittedDelta expA cfg init k y x i

/-- `EnvironmentGrid.load_tick(t)` stores `replay_frame(run_dir, t, …)` as
the tensor that `get_cell` / `get_all_fields_at` / `get_neighborhood`
expose to agents. -/
def loadTick (expA : ℚ → ℚ) (cfg : Scenario) {h w : ℕ}
    (init : Tensor h w cfg.fields.length) (n t : ℕ) :
    Tensor h w cfg.fields.length :=
  replayFrame expA cfg init n t

/-! ## Concrete scenarios used as explicit inputs -/

/-- Exp stand-in for inputs whose code paths never evaluate `np.exp`. -/
def expA0 : ℚ → ℚ := fun _ => 1

def zeroCoeffs : Coeffs := ⟨0, 0, 0, 0, 0⟩

def fldT : FieldSpec := ⟨sTemperature, 0, 1, zeroCoeffs, false⟩

def fldH : FieldSpec := ⟨sHydration, 0, 1, zeroCoeffs, false⟩

def allPassesOn : Passes := ⟨true, true, true, true, true, true, true⟩

def allPassesOff : Passes := ⟨false, false, false, false, false, false, false⟩

/-- 1×1 world with `temperature` and `hydration`, all coefficients zero. -/
def cfgTH : Scenario :=
  ⟨1, 1, true, true, [fldT, fldH], defaultVegProfile, allPassesOn⟩

/-- Same fields as `cfgTH` with every dynamics pass toggled off. -/
def cfgOff : Scenario :=
  ⟨1, 1, true, true, [fldT, fldH], defaultVegProfile, allPassesOff⟩

/-- Initial tensor with both fields at `1.0` everywhere. -/
def initTH : Tensor 1 1 (cfgTH.fields.length) := fun _ _ _ => 1

def initOff : Tensor 1 1 (cfgOff.fields.length) := fun _ _ _ => 1

/-- Registered bounds `[0, 1/5]` for a derived `movement_cost` field. -/
def fldMC : FieldSpec := ⟨sMovementCost, 0, 1/5, zeroCoeffs, true⟩

/-- 1×1 world with `hydration` and a derived `movement_cost` whose
registered upper bound is below the derived pass's output range. -/
def cfgMC : Scenario :=
  ⟨1, 1, true, true, [fldH, fldMC], defaultVegProfile, allPassesOn⟩

def initMC : Tensor 1 1 (cfgMC.fields.length) := fun _ _ _ => 0

/-! ## Predator system (`runner/predators.py`)

Distances in the source are `np.sqrt` of integer squared offsets compared
against integer thresholds; since `sqrt` is monotone and the thresholds are
exact, every comparison is embedded as the equivalent comparison of squared
integers.  The stamped threat value `1 - dist/(hunt_radius+5)` contains the
irrational `sqrt`, which is abstracted by the parameter `sqrtA : ℕ → ℚ`
applied to the squared offset; the only fact the theorems assume about it
is nonnegativity (true of `np.sqrt`). -/

structure Predator where
  predator_id : ℕ
  x : ℤ
  y : ℤ
  hunt_radius : ℕ
  speed : ℕ
  active : Bool
deriving DecidableEq

/-- Per-axis toroidal distance `min(|a - b|, W - |a - b|)` as written in
`_find_closest_agent` and `check_predation`. -/
def axDistRaw (n : ℕ) (a b : ℤ) : ℤ := imin (iabs (a - b)) ((n : ℤ) - iabs (a - b))

/-- Squared toroidal distance of `check_predation` /
`_find_closest_agent`. -/
def torSqRaw (w h : ℕ) (ax ay px py : ℤ) : ℤ :=
  (axDistRaw w ax px) ^ 2 + (axDistRaw h ay py) ^ 2

/-- Per-axis offset distance through the remainder map: the magnitude of
the smallest representative of `a - b` modulo `n`. -/
def axDistMod (n : ℕ) (a b : ℤ) : ℤ :=
  imin ((a - b) % (n : ℤ)) ((n : ℤ) - (a - b) % (n : ℤ))

/-- Squared offset distance between a cell and a predator position used to
state how far the threat stamp can reach. -/
def torSqMod (w h : ℕ) (ax ay px py : ℤ) : ℤ :=
  (axDistMod w ax px) ^ 2 + (axDistMod h ay py) ^ 2

/-- `_find_closest_agent`: nearest agent within `hunt_radius`, first wins
on ties (`dist < min_dist` is strict). -/
def findClosest (w h : ℕ) (p : Predator) (agents : List (ℤ × ℤ)) : Option (ℤ × ℤ) :=
  (agents.foldl (fun acc a =>
    let ds := torSqRaw w h a.1 a.2 p.x p.y
    match acc with
    | none => if ds ≤ ((p.hunt_radius : ℤ)) ^ 2 then some (a, ds) else none
    | some b => if ds < b.2 ∧ ds ≤ ((p.hunt_radius : ℤ)) ^ 2 then some (a, ds) else some b)
    none).map Prod.fst

/-- `_move_toward`: unwrap each axis delta across the seam when
`|delta| > axis/2`, then one Chebyshev step of length `≤ speed` along the
strictly larger-|delta| axis; positions wrap by `%`. -/
def moveToward (w h : ℕ) (p : Predator) (t : ℤ × ℤ) : Predator :=
  let dx0 := t.1 - p.x
  let dy0 := t.2 - p.y
  let dx := if (w : ℤ) < 2 * iabs dx0 then -((w : ℤ) - iabs dx0) * Int.sign dx0 else dx0
  let dy := if (h : ℤ) < 2 * iabs dy0 then -((h : ℤ) - iabs dy0) * Int.sign dy0 else dy0
  let sx := if iabs dy < iabs dx then Int.sign dx * imin (p.speed : ℤ) (iabs dx) else 0
  let sy := if iabs dy < iabs dx then 0 else Int.sign dy * imin (p.speed : ℤ) (iabs dy)
  { p with x := (p.x + sx) % (w : ℤ), y := (p.y + sy) % (h : ℤ) }

/-- `_random_patrol`: the two `rng.integers(-1, 2)` draws arrive through
the `patrol` parameter. -/
def randomPatrol (w h : ℕ) (d : ℤ × ℤ) (p : Predator) : Predator :=
  { p with x := (p.x + d.1) % (w : ℤ), y := (p.y + d.2) % (h : ℤ) }

/-- Movement step of one active predator inside `update`. -/
def movePredator (w h : ℕ) (agents : List (ℤ × ℤ)) (patrol : ℕ → ℤ × ℤ)
    (p : Predator) : Predator :=
  match findClosest w h p agents with
  | some t => moveToward w h p t
  | none => randomPatrol w h (patrol p.predator_id) p

/-- Threat raster of shape `(H, W)`. -/
def TField (w h : ℕ) : Type := Fin h → Fin w → ℚ

/-- Stamp offsets `(dy, dx)` of `_update_threat_field` in loop order. -/
def offsetList (r : ℕ) : List (ℤ × ℤ) :=
  (List.range (2 * r + 1)).flatMap
    (fun a => (List.range (2 * r + 1)).map (fun b => ((a : ℤ) - r, (b : ℤ) - r)))

/-- `_update_threat_field(predator)`: over the square of radius
`hunt_radius + 5`, for offsets with `dist ≤ radius` compose
`max(existing, max(0, 1 - dist/radius))` into the wrapped target cell. -/
def stampOne {w h : ℕ} (hw : 0 < w) (hh : 0 < h) (sqrtA : ℕ → ℚ)
    (p : Predator) (f : TField w h) : TField w h :=
  let r := p.hunt_radius + 5
  fun cy cx =>
    (offsetList r).foldl (fun v d =>
      if wrapIdx hw (p.x + d.2) = cx ∧ wrapIdx hh (p.y + d.1) = cy then
        if d.2 ^ 2 + d.1 ^ 2 ≤ ((r : ℤ)) ^ 2 then
          qmax v (qmax 0 (1 - sqrtA (d.2 ^ 2 + d.1 ^ 2).toNat / (r : ℚ)))
        else v
      else v) (f cy cx)

/-- `PredatorSystem.update(agent_positions, tick)`: clear the threat field,
move every active predator (inactive ones are skipped), and stamp each
active predator's cone.  Movement touches only the predator itself and
stamping only the field, so the interleaved source loop equals this
map-then-fold. -/
def psUpdate {w h : ℕ} (hw : 0 < w) (hh : 0 < h) (sqrtA : ℕ → ℚ)
    (patrol : ℕ → ℤ × ℤ) (agents : List (ℤ × ℤ)) (preds : List Predator) :
    List Predator × TField w h :=
  let moved := preds.map (fun p => if p.active then movePredator w h agents patrol p else p)
  (moved,
    (moved.filter (fun p => p.active)).foldl
      (fun f p => stampOne hw hh sqrtA p f) (fun _ _ => 0))

/-- `check_predation(agent_positions)`: indices of agents at toroidal
distance `≤ 1` from some active predator (`sqrt(dxq+dyq) ≤ 1.0` iff the
squared distance is `≤ 1`). -/
def checkPredation (w h : ℕ) (preds : List Predator) (positions : List (ℤ × ℤ)) :
    List ℕ :=
  (List.range positions.length).filter (fun i =>
    let a := positions.getD i (0, 0)
    preds.any (fun p => p.active && decide (torSqRaw w h a.1 a.2 p.x p.y ≤ 1)))

/-! ## Banded agent state and predation handling
(`agent_iface/banded_agent.py`) -/

structure AgentState where
  agent_id : ℕ
  x : ℤ
  y : ℤ
  energy : ℚ
  tick : ℕ
  alive : Bool
  times_caught : ℕ
deriving DecidableEq

/-- `BandedAgent.handle_predation`: `times_caught += 1`,
`energy = max(0, energy - 50)`, dead when the clamped energy is `≤ 0`. -/
def handlePredation (a : AgentState) : AgentState :=
  let e := qmax 0 (a.energy - 50)
  { a with
    times_caught := a.times_caught + 1
    energy := e
    alive := if e ≤ 0 then false else a.alive }

/-! ## Actions and proposals (`agent_iface/band.py`) -/

inductive Action where
  | MOVE_NORTH
  | MOVE_SOUTH
  | MOVE_EAST
  | MOVE_WEST
  | STAY
  | FORAGE
  | DRINK
  | REST
  | SEEK_SHELTER
  | FLEE
  | GROUP_UP
  | SHARE_RESOURCE
  | SIGNAL
  | DEMONSTRATE_SKILL
  | EXPLORE
  | PRACTICE_CRAFT
  | PERFORM_RITUAL
deriving DecidableEq

/-- `ActionProposal`; of its free-form `params` dict, only the `reason`
entry is ever read by the arbiter, so `params` is embedded by that entry. -/
structure ActionProposal where
  action : Action
  urgency : ℚ
  expected_value : ℚ
  band_id : ℤ
  reason? : Option String
deriving DecidableEq

/-! ## Physiological band (`agent_iface/band_physiological.py`)

Band-internal numpy 2-D arrays (the neighborhood slices) are embedded as
`NArr`; the band's `rng.choice` draws arrive through explicit `pick`
parameters. -/

/-- A numpy 2-D array view: shape plus cell accessor. -/
structure NArr where
  rows : ℕ
  cols : ℕ
  get : ℕ → ℕ → ℚ

/-- Internal state of `PhysiologicalBand` (`state.internal_state` together
with the band's `state.urgency` and `state.gain`; fields that none of the
embedded code paths read, such as the episodic memory, are omitted). -/
structure PhysState where
  hunger : ℚ
  thirst : ℚ
  fatigue : ℚ
  temperature_stress : ℚ
  energy : ℚ
  hydration : ℚ
  current_focus : Option String
  focus_strength : ℚ
  ticks_since_satisfaction : ℕ
  desperation_level : ℚ
  search_radius : ℤ
  risk_tolerance : ℚ
  gain : ℚ
  urgency : ℚ

/-- Fresh band state from `PhysiologicalBand.__init__` with the given
initial gain (2.0 in `BandedAgent`). -/
def physInit (gain : ℚ) : PhysState :=
  { hunger := 0, thirst := 0, fatigue := 0, temperature_stress := 0
  , energy := 100, hydration := 100
  , current_focus := none, focus_strength := 0, ticks_since_satisfaction := 0
  , desperation_level := 0, search_radius := 2, risk_tolerance := 1/10
  , gain := gain, urgency := 0 }

/-- Perception record built by `perceive`. -/
structure Perception where
  local_temperature : ℚ
  local_hydration : ℚ
  local_vegetation : ℚ
  local_threat : ℚ
  neighborhood_threat : NArr
  neighborhood_vegetation : Option NArr
  neighborhood_hydration : Option NArr
  energy : ℚ
  position : ℤ × ℤ
  tick : ℕ

/-- Environment dict passed to `perceive`; absent keys are `none`. -/
structure EnvState where
  temperature? : Option ℚ
  hydration? : Option ℚ
  vegetation? : Option ℚ
  threat? : Option ℚ
  neighborhood_threat? : Option NArr
  neighborhood_vegetation? : Option NArr
  neighborhood_hydration? : Option NArr

/-- `PhysiologicalBand.perceive(env_state, agent_state)` with the `.get`
defaults of the source. -/
def perceive (env : EnvState) (energy : ℚ) (position : ℤ × ℤ) (tick : ℕ) :
    Perception :=
  { local_temperature := env.temperature?.getD (1/2)
  , local_hydration := env.hydration?.getD (1/2)
  , local_vegetation := env.vegetation?.getD 0
  , local_threat := env.threat?.getD 0
  , neighborhood_threat := env.neighborhood_threat?.getD ⟨5, 5, fun _ _ => 0⟩
  , neighborhood_vegetation := env.neighborhood_vegetation?
  , neighborhood_hydration := env.neighborhood_hydration?
  , energy := energy, position := position, tick := tick }

/-- `_apply_passive_depletion`. -/
def applyPassiveDepletion (st : PhysState) : PhysState :=
  { st with
    hunger := qmin 1 (st.hunger + 8/1000)
    thirst := qmin 1 (st.thirst + 12/1000)
    fatigue := qmin 1 (st.fatigue + 4/1000) }

/-- Python `max(iterable)` over the drive values (first element, then
strictly-greater replaces). -/
def listMaxQ : List ℚ → ℚ
  | [] => 0
  | x :: r => r.foldl (fun b a => if b < a then a else b) x

/-- Python `max(d, key=d.get)` over an insertion-ordered dict: the first
entry with the maximal value wins. -/
def argmaxFirst (dflt : Action) : List (Action × ℚ) → Action × ℚ
  | [] => (dflt, 0)
  | p :: r => r.foldl (fun b a => if b.2 < a.2 then a else b) p

/-- Same first-wins argmax over string-keyed drive entries. -/
def argmaxFirstS : List (String × ℚ) → String × ℚ
  | [] => ("", 0)
  | p :: r => r.foldl (fun b a => if b.2 < a.2 then a else b) p

/-- Python `min(d, key=d.get)`: first entry with the minimal value. -/
def argminFirst (dflt : Action) : List (Action × ℚ) → Action × ℚ
  | [] => (dflt, 0)
  | p :: r => r.foldl (fun b a => if a.2 < b.2 then a else b) p

/-- `_compute_focus(perception)`: weighted drives, adaptive hysteresis,
critical override; returns the updated state and `dominant_urgency`. -/
def computeFocus (st : PhysState) (threat : ℚ) : PhysState × ℚ :=
  let drives0 : List (String × ℚ) :=
    [(sHunger, st.hunger * 2), (sThirst, st.thirst * (13/10)),
     (sFatigue, st.fatigue * (8/10)), (sThreat, threat * 10)]
  let maxDrive := listMaxQ (drives0.map Prod.snd)
  let hm : ℚ := if 2 < maxDrive then 3/10 else if 3/2 < maxDrive then 6/10 else 1
  let drives : List (String × ℚ) :=
    match st.current_focus with
    | some c => drives0.map (fun p =>
        if p.1 = c then (p.1, p.2 + st.focus_strength * (3/10) * hm) else p)
    | none => drives0
  let dom := argmaxFirstS drives
  if st.current_focus = some dom.1 then
    let buildup : ℚ := (1/10) * (if maxDrive < 3/2 then 1 else 1/2)
    ({ st with focus_strength := qmin 1 (st.focus_strength + buildup) }, dom.2)
  else
    let swth := (2/10) * hm
    let curUrg : ℚ :=
      match st.current_focus with
      | some c => (((drives.find? (fun p => p.1 == c)).map Prod.snd).getD 0)
      | none => 0
    let critical : List String :=
      (([(sHunger, st.hunger), (sThirst, st.thirst), (sFatigue, st.fatigue)].filter
        (fun p => decide ((9 : ℚ)/10 < p.2))).map Prod.fst)
    if dom.1 ∈ critical then
      ({ st with current_focus := some dom.1, focus_strength := 2/10 }, dom.2)
    else if curUrg + swth < dom.2 then
      ({ st with current_focus := some dom.1, focus_strength := 3/10 }, dom.2)
    else (st, dom.2)

/-- `_compute_desperation()`: quadratic deficit vs. time pressure; also
rescales search radius (`int()` truncation is `⌊·⌋` on the nonnegative
argument) and risk tolerance. -/
def computeDesperation (st : PhysState) : PhysState × ℚ :=
  let deficit := (st.hunger ^ 2 + st.thirst ^ 2) / 2
  let timeD := qmin 1 ((st.ticks_since_satisfaction : ℚ) / 50)
  let d := qmax deficit timeD
  ({ st with
      desperation_level := d
      search_radius := ⌊(2 : ℚ) + d * 8⌋
      risk_tolerance := 1/10 + d * (1/2) }, d)

/-- `compute_urgency(perception)`: passive depletion, focus, desperation,
then `urgency = dominant_urgency * (1 + desperation) * gain` stored in the
band state. -/
def computeUrgency (st : PhysState) (perc : Perception) : PhysState :=
  let st1 := applyPassiveDepletion st
  let fr := computeFocus st1 perc.local_threat
  let dr := computeDesperation fr.1
  { dr.1 with urgency := fr.2 * (1 + dr.2) * dr.1.gain }

/-- `_find_safest_direction(threat_field)`; the source derives both center
indices from `shape[0]`. -/
def findSafestDirection (tf : NArr) : Action :=
  if tf.rows * tf.cols = 0 then Action.STAY
  else
    let c := tf.rows / 2
    let dirs : List (Action × ℚ) :=
      [(Action.MOVE_NORTH, if 0 < c then tf.get (c - 1) c else 1),
       (Action.MOVE_SOUTH, if c < tf.rows - 1 then tf.get (c + 1) c else 1),
       (Action.MOVE_EAST, if c < tf.cols - 1 then tf.get c (c + 1) else 1),
       (Action.MOVE_WEST, if 0 < c then tf.get c (c - 1) else 1)]
    (argminFirst Action.STAY dirs).1

/-- `_find_vegetation_direction(perception)`: steepest neighbor with a
desperation-scaled gradient threshold; `pick` stands for `rng.choice`. -/
def findVegetationDirection (st : PhysState) (perc : Perception)
    (pick : List Action → Action) : Action :=
  match perc.neighborhood_vegetation with
  | none => pick [Action.MOVE_NORTH, Action.MOVE_SOUTH, Action.MOVE_EAST, Action.MOVE_WEST]
  | some nv =>
    if nv.rows * nv.cols = 0 then
      pick [Action.MOVE_NORTH, Action.MOVE_SOUTH, Action.MOVE_EAST, Action.MOVE_WEST]
    else
      let cy := nv.rows / 2
      let cx := nv.cols / 2
      let cur := nv.get cy cx
      let dirs : List (Action × ℚ) :=
        (if 0 < cy then [(Action.MOVE_NORTH, nv.get (cy - 1) cx)] else []) ++
        (if cy < nv.rows - 1 then [(Action.MOVE_SOUTH, nv.get (cy + 1) cx)] else []) ++
        (if cx < nv.cols - 1 then [(Action.MOVE_EAST, nv.get cy (cx + 1))] else []) ++
        (if 0 < cx then [(Action.MOVE_WEST, nv.get cy (cx - 1))] else [])
      if dirs.isEmpty then Action.STAY
      else
        let best := argmaxFirst Action.STAY dirs
        let desp := st.desperation_level
        let gth := (3/100) * (1 - desp * (7/10))
        if cur + gth < best.2 then best.1
        else if 1/2 < desp then best.1
        else pick (dirs.map Prod.fst)

/-- `_find_water_direction(perception)` (fixed threshold `0.05`). -/
def findWaterDirection (perc : Perception) (pick : List Action → Action) : Action :=
  match perc.neighborhood_hydration with
  | none => pick [Action.MOVE_NORTH, Action.MOVE_SOUTH, Action.MOVE_EAST, Action.MOVE_WEST]
  | some nh =>
    if nh.rows * nh.cols = 0 then
      pick [Action.MOVE_NORTH, Action.MOVE_SOUTH, Action.MOVE_EAST, Action.MOVE_WEST]
    else
      let cy := nh.rows / 2
      let cx := nh.cols / 2
      let cur := nh.get cy cx
      let dirs : List (Action × ℚ) :=
        (if 0 < cy then [(Action.MOVE_NORTH, nh.get (cy - 1) cx)] else []) ++
        (if cy < nh.rows - 1 then [(Action.MOVE_SOUTH, nh.get (cy + 1) cx)] else []) ++
        (if cx < nh.cols - 1 then [(Action.MOVE_EAST, nh.get cy (cx + 1))] else []) ++
        (if 0 < cx then [(Action.MOVE_WEST, nh.get cy (cx - 1))] else [])
      if dirs.isEmpty then Action.STAY
      else
        let best := argmaxFirst Action.STAY dirs
        if cur + 5/100 < best.2 then best.1
        else pick (dirs.map Prod.fst)

/-- `propose_actions(perception)` dispatched on the current focus; the
`params` dict of each proposal is embedded by its `reason` entry (absent
for the hunger/thirst/rest proposals). -/
def proposeActions (bandId : ℤ) (st : PhysState) (perc : Perception)
    (pick : List Action → Action) : List ActionProposal :=
  match st.current_focus with
  | some f =>
    if f = sThreat then
      [⟨findSafestDirection perc.neighborhood_threat, st.urgency, 1, bandId, some sFleePredator⟩]
    else if f = sHunger then
      let desp := st.desperation_level
      let acceptable := 3/10 - desp * (2/10)
      if acceptable < perc.local_vegetation then
        [⟨Action.FORAGE, st.urgency, perc.local_vegetation * 5, bandId, none⟩]
      else
        [⟨findVegetationDirection st perc pick, st.urgency * (1 + desp * (1/2)), 1, bandId, none⟩]
    else if f = sThirst then
      if 7/10 < perc.local_hydration then
        [⟨Action.DRINK, st.urgency, perc.local_hydration * 4, bandId, none⟩]
      else
        [⟨findWaterDirection perc pick, st.urgency, 1, bandId, none⟩]
    else if f = sFatigue then
      [⟨Action.REST, st.urgency, 1/2, bandId, none⟩]
    else
      [⟨Action.STAY, 1/10, 0, bandId, some sContent⟩]
  | none => [⟨Action.STAY, 1/10, 0, bandId, some sContent⟩]

/-! ## Arbiter (`agent_iface/arbiter.py`) -/

structure ArbiterState where
  inertia : ℚ
  temperature : ℚ
  previous_action : Option Action
  previous_band : Option ℤ
  dominant_band_history : List ℤ

def arbiterInit : ArbiterState :=
  ⟨3/10, 2, none, none, []⟩

/-- Result record of `select_action`. -/
structure SelResult where
  action : Action
  dominant : ℤ
  chosen : Option ActionProposal
  st : ArbiterState

/-- Record a selection into the arbiter's state. -/
def pushHist (ar : ArbiterState) (p : ActionProposal) : ArbiterState :=
  { ar with
    previous_action := some p.action
    previous_band := some p.band_id
    dominant_band_history := ar.dominant_band_history ++ [p.band_id] }

/-- `_softmax(x)` with `np.exp` abstracted by `expA`. -/
def softmaxA (expA : ℚ → ℚ) (xs : List ℚ) : List ℚ :=
  let m := listMaxQ xs
  let es := xs.map (fun x => expA (x - m))
  let s := es.sum
  es.map (fun e => e / s)

/-- `Arbiter.select_action(bands, all_proposals, agent_state)`; `sample`
stands for `rng.choice` over the probability vector (its value is clamped
into range, which a real index draw always satisfies). -/
def selectAction (expA : ℚ → ℚ) (sample : List ℚ → ℕ) (ar : ArbiterState)
    (allProps : List (List ActionProposal)) (energy : ℚ) : SelResult :=
  if allProps.all (fun l => l.isEmpty) then ⟨Action.STAY, 0, none, ar⟩
  else
    let flat := allProps.flatten
    if flat.isEmpty then ⟨Action.STAY, 0, none, ar⟩
    else
      match flat.find? (fun p => decide (p.band_id = 2 ∧ 8 < p.urgency)) with
      | some p => ⟨p.action, p.band_id, some p, pushHist ar p⟩
      | none =>
        match (if energy < 10 then
            flat.find? (fun p => decide (p.band_id = 1 ∧ p.reason? = some sCriticalHunger))
          else none) with
        | some p => ⟨p.action, p.band_id, some p, pushHist ar p⟩
        | none =>
          let urg := flat.map (fun p =>
            if ar.previous_band = some p.band_id then p.urgency * (1 + ar.inertia) else p.urgency)
          let probs :=
            if listMaxQ urg = 0 then List.replicate flat.length ((1 : ℚ) / flat.length)
            else softmaxA expA (urg.map (fun u => u / ar.temperature))
          let j := min (sample probs) (flat.length - 1)
          let p := flat.getD j ⟨Action.STAY, 0, 0, 0, none⟩
          ⟨p.action, p.band_id, some p, pushHist ar p⟩

/-! ## Concrete witness inputs -/

/-- Active predator at the origin with `hunt_radius = 10`, `speed = 1`. -/
def predC : Predator := ⟨0, 0, 0, 10, 1, true⟩

/-- Alive agent one cell south of the origin with energy 100. -/
def agent100 : AgentState := ⟨0, 0, 1, 100, 0, true, 0⟩

/-- Alive agent with energy 40 (test scenario 8 of the spec). -/
def agent40 : AgentState := ⟨1, 3, 3, 40, 0, true, 0⟩

/-- Integer square root cast to ℚ: a concrete nonnegative stand-in for
`np.sqrt` on squared offsets. -/
def sqrtN : ℕ → ℚ := fun n => (Nat.sqrt n : ℚ)

/-- Deterministic stand-in for the sampler (`rng.choice`). -/
def sampleZero : List ℚ → ℕ := fun _ => 0

/-- Deterministic stand-in for the band's `rng.choice`. -/
def pickHead : List Action → Action := fun l => l.headD Action.STAY

/-- Perception with every drive input neutral and zero threat. -/
def percZero : Perception :=
  ⟨1/2, 1/2, 0, 0, ⟨5, 5, fun _ _ => 0⟩, none, none, 100, (0, 0), 0⟩

/-- Safety proposal from band 2 with urgency 9. -/
def pFlee : ActionProposal := ⟨Action.FLEE, 9, 1, 2, none⟩

/-- Band-1 proposal carrying `reason=critical_hunger`. -/
def pHungerCrit : ActionProposal := ⟨Action.FORAGE, 5, 1, 1, some sCriticalHunger⟩

/-- Proposal lists where the safety veto and the energy emergency both
match. -/
def propsBoth : List (List ActionProposal) := [[pFlee], [pHungerCrit]]

/-- Proposal lists with only the energy-emergency match. -/
def propsHunger : List (List ActionProposal) :=
  [[⟨Action.MOVE_NORTH, 3, 1, 0, none⟩], [pHungerCrit]]

def fldV : FieldSpec := ⟨sVegetation, 0, 1, zeroCoeffs, false⟩

/-- Registered field list of the default scenario. -/
def fieldsDefault : List FieldSpec := [fldT, fldH, fldV, ⟨sMovementCost, 0, 1, zeroCoeffs, true⟩]

/-! ## Bridge lemmas for the executable `min` / `max` / `abs` -/

theorem qmin_eq (a b : ℚ) : qmin a b = min a b := by
  unfold qmin; rw [min_def]

theorem qmax_eq (a b : ℚ) : qmax a b = max a b := by
  unfold qmax; rw [max_def]

theorem qabs_eq (a : ℚ) : qabs a = |a| := by
  unfold qabs
  rcases le_or_lt 0 a with h | h
  · rw [if_pos h, abs_of_nonneg h]
  · rw [if_neg (not_le.mpr h), abs_of_neg h]

theorem imin_eq (a b : ℤ) : imin a b = min a b := by
  unfold imin; rw [min_def]

theorem imax_eq (a b : ℤ) : imax a b = max a b := by
  unfold imax; rw [max_def]

theorem iabs_eq (a : ℤ) : iabs a = |a| := by
  unfold iabs
  rcases le_or_lt 0 a with h | h
  · rw [if_pos h, abs_of_nonneg h]
  · rw [if_neg (not_le.mpr h), abs_of_neg h]

theorem clipQ_le_hi (x lo hi : ℚ) : clipQ x lo hi ≤ hi := by
  unfold clipQ; rw [qmin_eq]; exact min_le_right _ _

theorem lo_le_clipQ (x lo hi : ℚ) (h : lo ≤ hi) : lo ≤ clipQ x lo hi := by
  unfold clipQ; rw [qmin_eq, qmax_eq]
  exact le_min (le_trans (le_max_right x lo) (le_refl _)) h

theorem clipQ_eq_self (x lo hi : ℚ) (h1 : lo ≤ x) (h2 : x ≤ hi) :
    clipQ x lo hi = x := by
  unfold clipQ; rw [qmin_eq, qmax_eq, max_eq_left h1, min_eq_left h2]

/-! ## Registry lemmas and C9 -/

theorem lastIdx_eq_none (l : List String) (s : String) (h : s ∉ l) :
    lastIdx l s = none := by
  induction l with
  | nil => rfl
  | cons a t ih =>
    have h1 : s ∉ t := fun hm => h (List.mem_cons_of_mem a hm)
    have h2 : ¬ a = s := fun he => h (he ▸ List.mem_cons_self a t)
    simp only [lastIdx, ih h1, if_neg h2]

theorem lastIdx_get (l : List String) (h : l.Nodup) :
    ∀ i (hi : i < l.length), lastIdx l (l.get ⟨i, hi⟩) = some i := by
  induction l with
  | nil => intro i hi; simp at hi
  | cons a t ih =>
    intro i hi
    cases i with
    | zero =>
      have ha : a ∉ t := (List.nodup_cons.mp h).1
      simp only [List.get, lastIdx, lastIdx_eq_none t a ha]
      simp
    | succ j =>
      have ht : t.Nodup := (List.nodup_cons.mp h).2
      have hj : j < t.length := by simpa using hi
      simp only [List.get, lastIdx, ih ht j hj]

/-- C9: from the ordered field list, the registry satisfies
`index[names[i]] == i` at every position (field names being the keys of
the index dict), and rebuilding it from an identical scenario yields an
identical registry. -/
theorem c9_registry (fields : List FieldSpec)
    (hnd : (fields.map (fun f => f.name)).Nodup) :
    buildRegistry fields = buildRegistry fields ∧
    ∀ i (hi : i < (buildRegistry fields).names.length),
      (buildRegistry fields).indices ((buildRegistry fields).names.get ⟨i, hi⟩) = some i := by
  refine ⟨rfl, ?_⟩
  intro i hi
  have hi' : i < (fields.map (fun f => f.name)).length := hi
  exact lastIdx_get (fields.map (fun f => f.name)) hnd i hi'

/-- Witness for C9 at the default scenario's four fields. -/
theorem c9_registry_witness :
    (fieldsDefault.map (fun f => f.name)).Nodup ∧
    ∀ i (hi : i < (buildRegistry fieldsDefault).names.length),
      (buildRegistry fieldsDefault).indices
        ((buildRegistry fieldsDefault).names.get ⟨i, hi⟩) = some i :=
  ⟨by decide, (c9_registry fieldsDefault (by decide)).2⟩

/-! ## Arbiter lemmas, C8 and C7 -/

theorem flatten_eq_nil_of_all_isEmpty (l : List (List ActionProposal))
    (h : l.all (fun x => x.isEmpty) = true) : l.flatten = [] := by
  induction l with
  | nil => rfl
  | cons a t ih =>
    rw [List.all_cons, Bool.and_eq_true] at h
    rw [List.flatten_cons, List.isEmpty_iff.mp h.1, ih h.2, List.nil_append]

/-- C8: a band-2 proposal with urgency above 8 preempts every other rule:
the arbiter returns the first such proposal's action and records its band,
for every arbiter state, energy, sampler and softmax. -/
theorem c8_safety_veto (expA : ℚ → ℚ) (sample : List ℚ → ℕ) (ar : ArbiterState)
    (allProps : List (List ActionProposal)) (energy : ℚ) (p : ActionProposal)
    (hfind : allProps.flatten.find? (fun q => decide (q.band_id = 2 ∧ 8 < q.urgency)) = some p) :
    (selectAction expA sample ar allProps energy).action = p.action ∧
    (selectAction expA sample ar allProps energy).dominant = p.band_id ∧
    (selectAction expA sample ar allProps energy).st.previous_band = some p.band_id ∧
    p.band_id = 2 ∧ 8 < p.urgency := by
  have hfs := List.find?_some hfind
  have hp : p.band_id = 2 ∧ 8 < p.urgency := by simpa using hfs
  have hne : allProps.flatten ≠ [] := by
    intro h0
    rw [h0] at hfind
    simp at hfind
  have hall : allProps.all (fun l => l.isEmpty) = false := by
    rcases Bool.eq_false_or_eq_true (allProps.all (fun l => l.isEmpty)) with h | h
    · exact absurd (flatten_eq_nil_of_all_isEmpty allProps h) hne
    · exact h
  have hemp : allProps.flatten.isEmpty = false := by
    rcases Bool.eq_false_or_eq_true allProps.flatten.isEmpty with h | h
    · exact absurd (List.isEmpty_iff.mp h) hne
    · exact h
  have hsel : selectAction expA sample ar allProps energy =
      ⟨p.action, p.band_id, some p, pushHist ar p⟩ := by
    simp only [selectAction]
    rw [hall, if_neg Bool.false_ne_true, hemp, if_neg Bool.false_ne_true, hfind]
  rw [hsel]
  exact ⟨rfl, rfl, rfl, hp⟩

/-- Witness for C8: both a safety proposal and an energy-emergency
proposal are present; the safety proposal wins. -/
theorem c8_safety_veto_witness :
    propsBoth.flatten.find? (fun q => decide (q.band_id = 2 ∧ 8 < q.urgency)) = some pFlee ∧
    (selectAction expA0 sampleZero arbiterInit propsBoth 5).action = pFlee.action :=
  ⟨by decide, (c8_safety_veto expA0 sampleZero arbiterInit propsBoth 5 pFlee (by decide)).1⟩

/-- C7 counterexample: with energy 5 the proposals contain a band-1
`critical_hunger` proposal whose action is FORAGE, yet the arbiter selects
the band-2 safety proposal's FLEE — the claim's selection equality fails
as stated. -/
theorem c7_claim_counterexample :
    (5 : ℚ) < 10 ∧
    propsBoth.flatten.find?
      (fun q => decide (q.band_id = 1 ∧ q.reason? = some sCriticalHunger)) = some pHungerCrit ∧
    pHungerCrit.action = Action.FORAGE ∧
    (selectAction expA0 sampleZero arbiterInit propsBoth 5).action = Action.FLEE ∧
    Action.FLEE ≠ Action.FORAGE := by decide

/-- C7 amended: when energy is below 10, no proposal triggers the safety
veto, and some band-1 proposal carries `reason=critical_hunger`, the
arbiter selects the first such proposal and records band 1 as dominant. -/
theorem c7_energy_emergency (expA : ℚ → ℚ) (sample : List ℚ → ℕ) (ar : ArbiterState)
    (allProps : List (List ActionProposal)) (energy : ℚ) (p : ActionProposal)
    (hen : energy < 10)
    (hsafe : ∀ q ∈ allProps.flatten, ¬(q.band_id = 2 ∧ 8 < q.urgency))
    (hfind : allProps.flatten.find?
      (fun q => decide (q.band_id = 1 ∧ q.reason? = some sCriticalHunger)) = some p) :
    (selectAction expA sample ar allProps energy).action = p.action ∧
    (selectAction expA sample ar allProps energy).dominant = p.band_id ∧
    (selectAction expA sample ar allProps energy).st.previous_band = some p.band_id ∧
    p.band_id = 1 ∧ p.reason? = some sCriticalHunger := by
  have hfs := List.find?_some hfind
  have hp : p.band_id = 1 ∧ p.reason? = some sCriticalHunger := by simpa using hfs
  have hne : allProps.flatten ≠ [] := by
    intro h0
    rw [h0] at hfind
    simp at hfind
  have hall : allProps.all (fun l => l.isEmpty) = false := by
    rcases Bool.eq_false_or_eq_true (allProps.all (fun l => l.isEmpty)) with h | h
    · exact absurd (flatten_eq_nil_of_all_isEmpty allProps h) hne
    · exact h
  have hemp : allProps.flatten.isEmpty = false := by
    rcases Bool.eq_false_or_eq_true allProps.flatten.isEmpty with h | h
    · exact absurd (List.isEmpty_iff.mp h) hne
    · exact h
  have hnosafe : allProps.flatten.find? (fun q => decide (q.band_id = 2 ∧ 8 < q.urgency)) = none := by
    apply List.find?_eq_none.mpr
    intro q hq
    simpa using hsafe q hq
  have hsel : selectAction expA sample ar allProps energy =
      ⟨p.action, p.band_id, some p, pushHist ar p⟩ := by
    simp only [selectAction]
    rw [hall, if_neg Bool.false_ne_true, hemp, if_neg Bool.false_ne_true, hnosafe]
    simp only []
    rw [if_pos hen, hfind]
  rw [hsel]
  exact ⟨rfl, rfl, rfl, hp⟩

/-- Witness for C7 amended: energy 5, no safety proposal present. -/
theorem c7_energy_emergency_witness :
    ((5 : ℚ) < 10 ∧
      (∀ q ∈ propsHunger.flatten, ¬(q.band_id = 2 ∧ 8 < q.urgency)) ∧
      propsHunger.flatten.find?
        (fun q => decide (q.band_id = 1 ∧ q.reason? = some sCriticalHunger)) = some pHungerCrit) ∧
    (selectAction expA0 sampleZero arbiterInit propsHunger 5).action = pHungerCrit.action :=
  ⟨⟨by decide, by decide, by decide⟩,
    (c7_energy_emergency expA0 sampleZero arbiterInit propsHunger 5 pHungerCrit
      (by decide) (by decide) (by decide)).1⟩

/-! ## Predation lemmas, C5 -/

/-- C5 counterexample: the agent at toroidal distance 1 from the active
predator is caught, but with prior energy 100 the predation handling
leaves it alive (energy 50) — "no such agent survives" fails as stated. -/
theorem c5_claim_counterexample :
    checkPredation 8 8 [predC] [(0, 1)] = [0] ∧
    (handlePredation agent100).alive = true ∧
    (handlePredation agent100).energy = 50 := by decide

/-- C5 amended: every agent within toroidal distance 1 of some active
predator is caught by the predation check; the per-catch handling then
subtracts 50 energy (clamped at 0) and the agent is dead exactly when its
prior energy was at most 50. -/
theorem c5_predation (w h : ℕ) (preds : List Predator) (positions : List (ℤ × ℤ))
    (i : ℕ) (hi : i < positions.length)
    (hex : ∃ p ∈ preds, p.active = true ∧
      torSqRaw w h (positions.getD i (0, 0)).1 (positions.getD i (0, 0)).2 p.x p.y ≤ 1) :
    i ∈ checkPredation w h preds positions ∧
    ∀ a : AgentState, a.alive = true →
      (handlePredation a).energy = qmax 0 (a.energy - 50) ∧
      ((handlePredation a).alive = true ↔ 50 < a.energy) := by
  constructor
  · unfold checkPredation
    rw [List.mem_filter]
    refine ⟨List.mem_range.mpr hi, ?_⟩
    rcases hex with ⟨p, hpm, hact, hd⟩
    apply List.any_eq_true.mpr
    refine ⟨p, hpm, ?_⟩
    simp only [Bool.and_eq_true, decide_eq_true_eq]
    exact ⟨hact, hd⟩
  · intro a ha
    refine ⟨rfl, ?_⟩
    show (if qmax 0 (a.energy - 50) ≤ 0 then false else a.alive) = true ↔ 50 < a.energy
    rw [qmax_eq]
    rcases le_or_lt a.energy 50 with hle | hlt
    · have h0 : max 0 (a.energy - 50) = 0 := max_eq_left (by linarith)
      rw [h0, if_pos (le_refl (0 : ℚ))]
      constructor
      · intro hc; exact absurd hc (by simp)
      · intro hc; linarith
    · have hcond : ¬ (max 0 (a.energy - 50) ≤ 0) := by
        intro hc
        have := (max_le_iff.mp hc).2
        linarith
      rw [if_neg hcond]
      constructor
      · intro _; exact hlt
      · intro _; exact ha

/-- Witness for C5 amended: caught agent at distance 1; the handling
characterisation instantiated concretely. -/
theorem c5_predation_witness :
    (0 < [((0 : ℤ), (1 : ℤ))].length ∧
      predC.active = true ∧ torSqRaw 8 8 0 1 predC.x predC.y ≤ 1) ∧
    0 ∈ checkPredation 8 8 [predC] [(0, 1)] ∧
    ∀ a : AgentState, a.alive = true →
      (handlePredation a).energy = qmax 0 (a.energy - 50) ∧
      ((handlePredation a).alive = true ↔ 50 < a.energy) :=
  ⟨⟨by decide, by decide, by decide⟩,
    c5_predation 8 8 [predC] [(0, 1)] 0 (by decide)
      ⟨predC, by decide, by decide, by decide⟩⟩

/-! ## Physiological band lemmas, C6 -/

theorem none_eq_some_iff {α : Type} (a : α) : (Option.none = Option.some a) ↔ False := by
  constructor
  · intro h; exact Option.noConfusion h
  · intro h; exact h.elim

/-- C6 counterexample: for a fresh band (all drives zero, gain 2) and a
zero-threat perception, one compute-urgency call returns
`0.0320033…`, not `0`: the passive depletion inside `compute_urgency`
raises hunger to `0.008` first, and the code returns the dominant weighted
drive's urgency even though the focus remains `None`. -/
theorem c6_claim_counterexample :
    (computeUrgency (physInit 2) percZero).urgency = 125013/3906250 ∧
    ((125013 : ℚ)/3906250) ≠ 0 := by decide

/-- C6 amended: with all drives zero, no threat, focus unset and no
satisfaction backlog, one perceive / compute-urgency / propose cycle
yields urgency `gain * 0.016 * 1.000104` (positive whenever the gain is)
while the focus stays `None`, and the proposal list is exactly the STAY
proposal (with urgency 0.1 and reason `content`). -/
theorem c6_zero_drive_cycle (st : PhysState) (perc : Perception)
    (pick : List Action → Action) (bandId : ℤ)
    (hh : st.hunger = 0) (ht : st.thirst = 0) (hf : st.fatigue = 0)
    (hcf : st.current_focus = none) (htss : st.ticks_since_satisfaction = 0)
    (hthr : perc.local_threat = 0) :
    (computeUrgency st perc).urgency = 2/125 * (125013/125000) * st.gain ∧
    (computeUrgency st perc).current_focus = none ∧
    proposeActions bandId (computeUrgency st perc) perc pick =
      [⟨Action.STAY, 1/10, 0, bandId, some sContent⟩] := by
  have hmain : (computeUrgency st perc).urgency = 2/125 * (125013/125000) * st.gain ∧
      (computeUrgency st perc).current_focus = none := by
    norm_num [computeUrgency, applyPassiveDepletion, computeFocus, computeDesperation,
      listMaxQ, argmaxFirstS, qmin, qmax, hh, ht, hf, hcf, htss, hthr, none_eq_some_iff]
  refine ⟨hmain.1, hmain.2, ?_⟩
  rw [proposeActions, hmain.2]

/-- Witness for C6 amended at the fresh band state built by the band's
constructor (gain 2) and a neutral zero-threat perception. -/
theorem c6_zero_drive_cycle_witness :
    ((physInit 2).hunger = 0 ∧ (physInit 2).current_focus = none ∧
      percZero.local_threat = 0) ∧
    (computeUrgency (physInit 2) percZero).urgency = 2/125 * (125013/125000) * (physInit 2).gain ∧
    (computeUrgency (physInit 2) percZero).current_focus = none ∧
    proposeActions 1 (computeUrgency (physInit 2) percZero) percZero pickHead =
      [⟨Action.STAY, 1/10, 0, 1, some sContent⟩] :=
  ⟨⟨rfl, rfl, rfl⟩,
    c6_zero_drive_cycle (physInit 2) percZero pickHead 1 rfl rfl rfl rfl rfl rfl⟩

/-! ## Kernel-step bound lemmas, C4, C3 -/

theorem idxOfName_name (fields : List FieldSpec) (s : String)
    (mi : Fin fields.length) (h : idxOfName fields s = some mi) :
    (fields.get mi).name = s := by
  have := List.find?_some h
  exact eq_of_beq this

/-- When every `movement_cost` field is derived, the derived-field write
leaves non-derived positions untouched. -/
theorem mcPass_nonderived (cfg : Scenario) {h w : ℕ}
    (t : Tensor h w cfg.fields.length) (y : Fin h) (x : Fin w)
    (i : Fin cfg.fields.length)
    (hmc : ∀ j : Fin cfg.fields.length,
      (cfg.fields.get j).name = sMovementCost → (cfg.fields.get j).derived = true)
    (hder : (cfg.fields.get i).derived = false) :
    mcPass cfg t y x i = t y x i := by
  have hne : ∀ mi, idxOfName cfg.fields sMovementCost = some mi → ¬ i = mi := by
    intro mi heq hc
    have hname := idxOfName_name cfg.fields sMovementCost mi heq
    have hdermi := hmc mi hname
    rw [hc, hdermi] at hder
    exact Bool.noConfusion hder
  unfold mcPass
  rcases heq : idxOfName cfg.fields sMovementCost with _ | mi
  · rfl
  · simp only []
    rw [if_neg (hne mi heq)]

/-- The decay/replenish/clamp pass pins every non-derived field into its
registered bounds. -/
theorem decayPass_bounds (cfg : Scenario) {h w : ℕ}
    (t : Tensor h w cfg.fields.length) (y : Fin h) (x : Fin w)
    (i : Fin cfg.fields.length)
    (hder : (cfg.fields.get i).derived = false)
    (hlh : (cfg.fields.get i).lo ≤ (cfg.fields.get i).hi) :
    (cfg.fields.get i).lo ≤ decayPass cfg t y x i ∧
    decayPass cfg t y x i ≤ (cfg.fields.get i).hi := by
  unfold decayPass
  rw [if_neg (by rw [hder]; exact Bool.false_ne_true)]
  exact ⟨lo_le_clipQ _ _ _ hlh, clipQ_le_hi _ _ _⟩

/-- One full kernel step keeps every non-derived field within its
registered bounds (the final clamp of the decay pass dominates all earlier
passes, and the derived write only touches derived `movement_cost`). -/
theorem stepKernels_bounds (expA : ℚ → ℚ) (cfg : Scenario) {h w : ℕ}
    (t : Tensor h w cfg.fields.length) (y : Fin h) (x : Fin w)
    (i : Fin cfg.fields.length)
    (hmc : ∀ j : Fin cfg.fields.length,
      (cfg.fields.get j).name = sMovementCost → (cfg.fields.get j).derived = true)
    (hder : (cfg.fields.get i).derived = false)
    (hlh : (cfg.fields.get i).lo ≤ (cfg.fields.get i).hi) :
    (cfg.fields.get i).lo ≤ stepKernels expA cfg t y x i ∧
    stepKernels expA cfg t y x i ≤ (cfg.fields.get i).hi := by
  unfold stepKernels
  rw [mcPass_nonderived cfg _ y x i hmc hder]
  exact decayPass_bounds cfg _ y x i hder hlh

/-- C4 counterexample: a derived `movement_cost` field registered with
bounds `[0, 1/5]` holds `1/2` after one engine kernel step — the derived
pass clips to `[0, 1]`, not to the registered bounds. -/
theorem c4_claim_counterexample :
    (cfgMC.fields.get ⟨1, by decide⟩).derived = true ∧
    (cfgMC.fields.get ⟨1, by decide⟩).hi = 1/5 ∧
    engTensor expA0 cfgMC initMC 1 0 0 ⟨1, by decide⟩ = 1/2 ∧
    ¬(engTensor expA0 cfgMC initMC 1 0 0 ⟨1, by decide⟩ ≤
        (cfgMC.fields.get ⟨1, by decide⟩).hi) := by decide

/-- C4 amended: provided the registered bounds are ordered and every
`movement_cost` field is registered as derived, every non-derived field
lies within its bounds after every kernel step of the engine loop, and
every field (derived included) lies within its bounds in the tensor
returned by `hydrate_tick`. -/
theorem c4_bounds (expA : ℚ → ℚ) (cfg : Scenario) {h w : ℕ}
    (init : Tensor h w cfg.fields.length)
    (hmc : ∀ j : Fin cfg.fields.length,
      (cfg.fields.get j).name = sMovementCost → (cfg.fields.get j).derived = true) :
    (∀ (t : ℕ) (y : Fin h) (x : Fin w) (i : Fin cfg.fields.length),
      (cfg.fields.get i).derived = false →
      (cfg.fields.get i).lo ≤ (cfg.fields.get i).hi →
      (cfg.fields.get i).lo ≤ engTensor expA cfg init (t + 1) y x i ∧
      engTensor expA cfg init (t + 1) y x i ≤ (cfg.fields.get i).hi) ∧
    (∀ (n t : ℕ) (y : Fin h) (x : Fin w) (i : Fin cfg.fields.length),
      (cfg.fields.get i).lo ≤ (cfg.fields.get i).hi →
      (cfg.fields.get i).lo ≤ hydrateTick expA cfg init n t y x i ∧
      hydrateTick expA cfg init n t y x i ≤ (cfg.fields.get i).hi) := by
  constructor
  · intro t y x i hder hlh
    have hstep : engTensor expA cfg init (t + 1) =
        stepKernels expA cfg (engTensor expA cfg init t) :=
      Function.iterate_succ_apply' (stepKernels expA cfg) t init
    rw [hstep]
    exact stepKernels_bounds expA cfg _ y x i hmc hder hlh
  · intro n t y x i hlh
    simp only [hydrateTick]
    exact ⟨lo_le_clipQ _ _ _ hlh, clipQ_le_hi _ _ _⟩

/-- Witness for C4 amended at the two-field scenario with both fields at
value 1. -/
theorem c4_bounds_witness :
    (∀ j : Fin cfgTH.fields.length,
      (cfgTH.fields.get j).name = sMovementCost → (cfgTH.fields.get j).derived = true) ∧
    ((∀ (t : ℕ) (y : Fin 1) (x : Fin 1) (i : Fin cfgTH.fields.length),
      (cfgTH.fields.get i).derived = false →
      (cfgTH.fields.get i).lo ≤ (cfgTH.fields.get i).hi →
      (cfgTH.fields.get i).lo ≤ engTensor expA0 cfgTH initTH (t + 1) y x i ∧
      engTensor expA0 cfgTH initTH (t + 1) y x i ≤ (cfgTH.fields.get i).hi) ∧
    (∀ (n t : ℕ) (y : Fin 1) (x : Fin 1) (i : Fin cfgTH.fields.length),
      (cfgTH.fields.get i).lo ≤ (cfgTH.fields.get i).hi →
      (cfgTH.fields.get i).lo ≤ hydrateTick expA0 cfgTH initTH n t y x i ∧
      hydrateTick expA0 cfgTH initTH n t y x i ≤ (cfgTH.fields.get i).hi)) :=
  ⟨by decide, c4_bounds expA0 cfgTH initTH (by decide)⟩

/-- C3: with every per-field coefficient zero and every dynamics pass —
coupling included — toggled off in the scenario, one kernel step still
changes the tensor: `step_kernels` never reads `dynamics.passes`, so the
evaporation coupling fires and lowers hydration from 1 to 0.995.  This
evaluates the code at the claim's failing input. -/
theorem c3_toggle_ignored :
    cfgOff.passes.coupling = false ∧
    (∀ i : Fin cfgOff.fields.length, (cfgOff.fields.get i).coeffs = zeroCoeffs) ∧
    initOff 0 0 ⟨1, by decide⟩ = 1 ∧
    stepKernels expA0 cfgOff initOff 0 0 ⟨1, by decide⟩ = 199/200 ∧
    stepKernels expA0 cfgOff initOff 0 0 ⟨1, by decide⟩ ≠ initOff 0 0 ⟨1, by decide⟩ := by
  decide

/-! ## Hydration replay, C1 and C2 -/

/-- C1 counterexample: at `t = 0` the hydrator's `tick > 0` guard skips
every journal row, so `hydrate(0)` returns the clamped initial tensor
(hydration 1) while the engine after processing tick 0 — its first
processed tick — holds the stepped tensor (hydration 0.995). -/
theorem c1_claim_counterexample :
    hydrateTick expA0 cfgTH initTH 2 0 0 0 ⟨1, by decide⟩ = 1 ∧
    engTensor expA0 cfgTH initTH 1 0 0 ⟨1, by decide⟩ = 199/200 ∧
    hydrateTick expA0 cfgTH initTH 2 0 0 0 ⟨1, by decide⟩ ≠
      engTensor expA0 cfgTH initTH 1 0 0 ⟨1, by decide⟩ := by decide

/-- C1 amended: for `1 ≤ t < n` (a run of `n` processed ticks), and on
non-derived fields, `hydrate(run, t)` equals the in-memory tensor held
after processing tick `t`, provided the registered bounds are ordered,
`movement_cost` is derived, and no per-tick change falls below the
`1e-8` journaling threshold (the source's float quantization). -/
theorem c1_hydrate_eq_engine (expA : ℚ → ℚ) (cfg : Scenario) {h w : ℕ}
    (init : Tensor h w cfg.fields.length) (n t : ℕ)
    (ht : 1 ≤ t) (htn : t < n)
    (hmc : ∀ j : Fin cfg.fields.length,
      (cfg.fields.get j).name = sMovementCost → (cfg.fields.get j).derived = true)
    (hbnd : ∀ j : Fin cfg.fields.length, (cfg.fields.get j).derived = false →
      (cfg.fields.get j).lo ≤ (cfg.fields.get j).hi)
    (hnodrop : ∀ k, k ≤ t → ∀ (y : Fin h) (x : Fin w) (i : Fin cfg.fields.length),
      (cfg.fields.get i).derived = false →
      engTensor expA cfg init (k + 1) y x i - engTensor expA cfg init k y x i = 0 ∨
      1/100000000 < qabs (engTensor expA cfg init (k + 1) y x i - engTensor expA cfg init k y x i)) :
    ∀ (y : Fin h) (x : Fin w) (i : Fin cfg.fields.length),
      (cfg.fields.get i).derived = false →
      hydrateTick expA cfg init n t y x i = engTensor expA cfg init (t + 1) y x i := by
  intro y x i hder
  simp only [hydrateTick]
  rw [if_pos (by omega : 0 < t)]
  have hmin : min (t + 1) n = t + 1 := by omega
  rw [hmin]
  have hsum : ∑ k in Finset.range (t + 1), emittedDelta expA cfg init k y x i =
      ∑ k in Finset.range (t + 1),
        (engTensor expA cfg init (k + 1) y x i - engTensor expA cfg init k y x i) := by
    apply Finset.sum_congr rfl
    intro k hk
    have hk' : k ≤ t := by
      have := Finset.mem_range.mp hk
      omega
    simp only [emittedDelta]
    rw [if_neg (by rw [hder]; exact Bool.false_ne_true)]
    rcases hnodrop k hk' y x i hder with h0 | hgt
    · rw [h0, ite_self]
    · rw [if_pos hgt]
  rw [hsum, Finset.sum_range_sub (fun k => engTensor expA cfg init k y x i)]
  have h0 : engTensor expA cfg init 0 y x i = init y x i := rfl
  rw [h0]
  have hval : init y x i + (engTensor expA cfg init (t + 1) y x i - init y x i) =
      engTensor expA cfg init (t + 1) y x i := by ring
  rw [hval]
  have hstep : engTensor expA cfg init (t + 1) =
      stepKernels expA cfg (engTensor expA cfg init t) :=
    Function.iterate_succ_apply' (stepKernels expA cfg) t init
  have hbd : (cfg.fields.get i).lo ≤ engTensor expA cfg init (t + 1) y x i ∧
      engTensor expA cfg init (t + 1) y x i ≤ (cfg.fields.get i).hi := by
    rw [hstep]
    exact stepKernels_bounds expA cfg (engTensor expA cfg init t) y x i hmc hder (hbnd i hder)
  exact clipQ_eq_self _ _ _ hbd.1 hbd.2

/-- Witness for C1 amended: two processed ticks of the 1×1 scenario, with
every emitted hydration delta equal to `-0.005`. -/
theorem c1_hydrate_eq_engine_witness :
    ((1 : ℕ) ≤ 1 ∧ (1 : ℕ) < 2 ∧
      (∀ k, k ≤ 1 → ∀ (y : Fin 1) (x : Fin 1) (i : Fin cfgTH.fields.length),
        (cfgTH.fields.get i).derived = false →
        engTensor expA0 cfgTH initTH (k + 1) y x i - engTensor expA0 cfgTH initTH k y x i = 0 ∨
        1/100000000 < qabs (engTensor expA0 cfgTH initTH (k + 1) y x i -
          engTensor expA0 cfgTH initTH k y x i))) ∧
    ∀ (y : Fin 1) (x : Fin 1) (i : Fin cfgTH.fields.length),
      (cfgTH.fields.get i).derived = false →
      hydrateTick expA0 cfgTH initTH 2 1 y x i = engTensor expA0 cfgTH initTH 2 y x i :=
  ⟨⟨by decide, by decide, by decide⟩,
    c1_hydrate_eq_engine expA0 cfgTH initTH 2 1 (by decide) (by decide)
      (by decide) (by decide) (by decide)⟩

/-- C2: the tensor that `load_tick` exposes to agents is `replay_frame`'s
zero-based delta accumulation, not the hydrated tensor: at tick 0 of a
1-tick run of the 1×1 scenario the view holds temperature 0 and hydration
-0.005, while `hydrate_tick(0)` holds temperature 1 and hydration 1.  This
evaluates the code at the claim's failing input. -/
theorem c2_view_divergence :
    loadTick expA0 cfgTH initTH 1 0 0 0 ⟨0, by decide⟩ = 0 ∧
    hydrateTick expA0 cfgTH initTH 1 0 0 0 ⟨0, by decide⟩ = 1 ∧
    loadTick expA0 cfgTH initTH 1 0 0 0 ⟨1, by decide⟩ = -(1/200) ∧
    hydrateTick expA0 cfgTH initTH 1 0 0 0 ⟨1, by decide⟩ = 1 ∧
    loadTick expA0 cfgTH initTH 1 0 0 0 ⟨0, by decide⟩ ≠
      hydrateTick expA0 cfgTH initTH 1 0 0 0 ⟨0, by decide⟩ := by decide

/-! ## Threat-field lemmas, C10 -/

theorem foldl_preserve {α β : Type} (P : α → Prop) (g : α → β → α)
    (hg : ∀ v d, P v → P (g v d)) :
    ∀ (l : List β) (v : α), P v → P (l.foldl g v) := by
  intro l
  induction l with
  | nil => intro v hv; exact hv
  | cons d rest ih => intro v hv; exact ih (g v d) (hg v d hv)

theorem foldl_id {α β : Type} (g : α → β → α) :
    ∀ (l : List β) (v : α), (∀ u d, d ∈ l → g u d = u) → l.foldl g v = v := by
  intro l
  induction l with
  | nil => intro v _; rfl
  | cons d rest ih =>
    intro v hg
    rw [List.foldl_cons, hg v d (List.mem_cons_self d rest),
      ih v (fun u e he => hg u e (List.mem_cons_of_mem d he))]

/-- The smallest representative of a residue class is at most the
magnitude of any representative. -/
theorem min_emod_le_abs (n : ℤ) (hn : 0 < n) (d : ℤ) :
    min (d % n) (n - d % n) ≤ |d| := by
  have h1 : 0 ≤ d % n := Int.emod_nonneg d (ne_of_gt hn)
  have h2 : d % n < n := Int.emod_lt_of_pos d hn
  rcases le_or_lt 0 d with hd | hd
  · rcases lt_or_le d n with hlt | hge
    · rw [Int.emod_eq_of_lt hd hlt]
      exact le_trans (min_le_left _ _) (le_abs_self d)
    · have habs : d ≤ |d| := le_abs_self d
      have : min (d % n) (n - d % n) ≤ n - d % n := min_le_right _ _
      omega
  · have habs : |d| = -d := abs_of_neg hd
    rcases lt_or_le (-d) n with hlt | hge
    · have hmod : d % n = d + n := by
        have he : (d + n * 1) % n = d % n := Int.add_mul_emod_self_left d n 1
        have hv : (d + n * 1) % n = d + n := by
          rw [mul_one]
          exact Int.emod_eq_of_lt (by omega) (by omega)
        omega
      have : min (d % n) (n - d % n) ≤ n - d % n := min_le_right _ _
      omega
    · have : min (d % n) (n - d % n) ≤ n - d % n := min_le_right _ _
      omega

theorem axDistMod_nonneg (n : ℕ) (hn : 0 < n) (a b : ℤ) : 0 ≤ axDistMod n a b := by
  unfold axDistMod
  rw [imin_eq]
  have hn' : (0 : ℤ) < (n : ℤ) := by exact_mod_cast hn
  have h1 : 0 ≤ (a - b) % (n : ℤ) := Int.emod_nonneg _ (ne_of_gt hn')
  have h2 : (a - b) % (n : ℤ) < (n : ℤ) := Int.emod_lt_of_pos _ hn'
  exact le_min h1 (by omega)

/-- If a stamp offset `d` lands on cell coordinate `c` from a predator
coordinate `p`, then the per-axis offset distance between `c` and `p` is
at most `|d|`. -/
theorem axDistMod_le_of_wrap {n : ℕ} (hn : 0 < n) (p d : ℤ) (c : Fin n)
    (hc : wrapIdx hn (p + d) = c) : axDistMod n (c : ℤ) p ≤ |d| := by
  have hn' : (0 : ℤ) < (n : ℤ) := by exact_mod_cast hn
  have hcv : (c : ℤ) = (p + d) % (n : ℤ) := by
    rw [← hc]
    unfold wrapIdx
    simp only []
    rw [Int.toNat_of_nonneg (Int.emod_nonneg _ (ne_of_gt hn'))]
  have key : ((c : ℤ) - p) % (n : ℤ) = d % (n : ℤ) := by
    rw [hcv, Int.sub_emod ((p + d) % (n : ℤ)) p (n : ℤ),
      Int.emod_emod_of_dvd _ (dvd_refl ((n : ℤ))), ← Int.sub_emod]
    congr 1
    ring
  unfold axDistMod
  rw [imin_eq, key]
  exact min_emod_le_abs (n : ℤ) hn' d

/-- Per-cell interval preservation of one predator's stamp. -/
theorem stampOne_bounds {w h : ℕ} (hw : 0 < w) (hh : 0 < h) (sqrtA : ℕ → ℚ)
    (hs : ∀ n, 0 ≤ sqrtA n) (p : Predator) (f : TField w h)
    (cy : Fin h) (cx : Fin w) (hf : 0 ≤ f cy cx ∧ f cy cx ≤ 1) :
    0 ≤ stampOne hw hh sqrtA p f cy cx ∧ stampOne hw hh sqrtA p f cy cx ≤ 1 := by
  unfold stampOne
  refine foldl_preserve (fun v => 0 ≤ v ∧ v ≤ 1) _ ?_ _ _ hf
  intro v d hv
  split
  · split
    · rw [qmax_eq, qmax_eq]
      constructor
      · exact le_trans hv.1 (le_max_left _ _)
      · apply max_le hv.2
        apply max_le (by norm_num)
        have hr : (0 : ℚ) < ((p.hunt_radius + 5 : ℕ) : ℚ) := by
          exact_mod_cast Nat.succ_le_of_lt (by omega)
        have hdiv : 0 ≤ sqrtA (d.2 ^ 2 + d.1 ^ 2).toNat / ((p.hunt_radius + 5 : ℕ) : ℚ) :=
          div_nonneg (hs _) (le_of_lt hr)
        linarith
    · exact hv
  · exact hv

/-- A predator whose offset distance to the cell exceeds its stamp radius
leaves the cell untouched. -/
theorem stampOne_far {w h : ℕ} (hw : 0 < w) (hh : 0 < h) (sqrtA : ℕ → ℚ)
    (p : Predator) (f : TField w h) (cy : Fin h) (cx : Fin w)
    (hfar : ((p.hunt_radius : ℤ) + 5) ^ 2 < torSqMod w h (cx : ℤ) (cy : ℤ) p.x p.y) :
    stampOne hw hh sqrtA p f cy cx = f cy cx := by
  unfold stampOne
  apply foldl_id
  intro u d hd
  by_cases hhit : wrapIdx hw (p.x + d.2) = cx ∧ wrapIdx hh (p.y + d.1) = cy
  · rw [if_pos hhit]
    rcases hhit with ⟨hx, hy⟩
    by_cases hdc : d.2 ^ 2 + d.1 ^ 2 ≤ ((((p.hunt_radius + 5 : ℕ)) : ℤ)) ^ 2
    · exfalso
      have h1 : axDistMod w (cx : ℤ) p.x ≤ |d.2| := axDistMod_le_of_wrap hw p.x d.2 cx hx
      have h2 : axDistMod h (cy : ℤ) p.y ≤ |d.1| := axDistMod_le_of_wrap hh p.y d.1 cy hy
      have h1' : (axDistMod w (cx : ℤ) p.x) ^ 2 ≤ d.2 ^ 2 := by
        calc (axDistMod w (cx : ℤ) p.x) ^ 2 ≤ |d.2| ^ 2 :=
          pow_le_pow_left₀ (axDistMod_nonneg w hw _ _) h1 2
        _ = d.2 ^ 2 := sq_abs d.2
      have h2' : (axDistMod h (cy : ℤ) p.y) ^ 2 ≤ d.1 ^ 2 := by
        calc (axDistMod h (cy : ℤ) p.y) ^ 2 ≤ |d.1| ^ 2 :=
          pow_le_pow_left₀ (axDistMod_nonneg h hh _ _) h2 2
        _ = d.1 ^ 2 := sq_abs d.1
      have hsum : torSqMod w h (cx : ℤ) (cy : ℤ) p.x p.y ≤ d.2 ^ 2 + d.1 ^ 2 := by
        unfold torSqMod
        exact add_le_add h1' h2'
      have hcast : (((p.hunt_radius + 5 : ℕ)) : ℤ) = (p.hunt_radius : ℤ) + 5 := by
        push_cast
        ring
      rw [hcast] at hdc
      omega
    · rw [if_neg hdc]
  · rw [if_neg hhit]

theorem stamp_fold_bounds {w h : ℕ} (hw : 0 < w) (hh : 0 < h) (sqrtA : ℕ → ℚ)
    (hs : ∀ n, 0 ≤ sqrtA n) :
    ∀ (l : List Predator) (f0 : TField w h),
      (∀ cy cx, 0 ≤ f0 cy cx ∧ f0 cy cx ≤ 1) →
      ∀ cy cx, 0 ≤ (l.foldl (fun f p => stampOne hw hh sqrtA p f) f0) cy cx ∧
        (l.foldl (fun f p => stampOne hw hh sqrtA p f) f0) cy cx ≤ 1 := by
  intro l
  induction l with
  | nil => intro f0 h0; exact h0
  | cons p rest ih =>
    intro f0 h0
    exact ih (stampOne hw hh sqrtA p f0)
      (fun cy cx => stampOne_bounds hw hh sqrtA hs p f0 cy cx (h0 cy cx))

theorem stamp_fold_far {w h : ℕ} (hw : 0 < w) (hh : 0 < h) (sqrtA : ℕ → ℚ)
    (cy : Fin h) (cx : Fin w) :
    ∀ (l : List Predator) (f0 : TField w h),
      (∀ p ∈ l, ((p.hunt_radius : ℤ) + 5) ^ 2 < torSqMod w h (cx : ℤ) (cy : ℤ) p.x p.y) →
      (l.foldl (fun f p => stampOne hw hh sqrtA p f) f0) cy cx = f0 cy cx := by
  intro l
  induction l with
  | nil => intro f0 _; rfl
  | cons p rest ih =>
    intro f0 hfar
    rw [List.foldl_cons, ih (stampOne hw hh sqrtA p f0)
      (fun q hq => hfar q (List.mem_cons_of_mem p hq))]
    exact stampOne_far hw hh sqrtA p f0 cy cx (hfar p (List.mem_cons_self p rest))

/-- C10: after every predator-system update, the threat field lies in
`[0, 1]` cell-wise, and every cell whose squared offset distance from
every active predator exceeds that predator's `(hunt_radius + 5)^2` holds
exactly 0 (the field is cleared first, each stamp reaches only offsets
with `dist ≤ hunt_radius + 5`, and stamps compose by per-cell max of
values in `[0, 1]`). -/
theorem c10_threat_field {w h : ℕ} (hw : 0 < w) (hh : 0 < h) (sqrtA : ℕ → ℚ)
    (hs : ∀ n, 0 ≤ sqrtA n) (patrol : ℕ → ℤ × ℤ) (agents : List (ℤ × ℤ))
    (preds : List Predator) :
    (∀ (cy : Fin h) (cx : Fin w),
      0 ≤ (psUpdate hw hh sqrtA patrol agents preds).2 cy cx ∧
      (psUpdate hw hh sqrtA patrol agents preds).2 cy cx ≤ 1) ∧
    (∀ (cy : Fin h) (cx : Fin w),
      (∀ p ∈ (psUpdate hw hh sqrtA patrol agents preds).1, p.active = true →
        ((p.hunt_radius : ℤ) + 5) ^ 2 < torSqMod w h (cx : ℤ) (cy : ℤ) p.x p.y) →
      (psUpdate hw hh sqrtA patrol agents preds).2 cy cx = 0) := by
  constructor
  · intro cy cx
    exact stamp_fold_bounds hw hh sqrtA hs _ (fun _ _ => 0)
      (fun _ _ => ⟨le_refl 0, by norm_num⟩) cy cx
  · intro cy cx hfar
    apply stamp_fold_far hw hh sqrtA cy cx
    intro p hp
    have hp' := List.mem_filter.mp hp
    exact hfar p hp'.1 hp'.2

theorem eightPos : 0 < (8 : ℕ) := by decide

/-- Witness for C10 on an 8×8 world with one predator and the integer
square root standing in for `np.sqrt`. -/
theorem c10_threat_field_witness :
    ((0 < (8 : ℕ)) ∧ (∀ n, 0 ≤ sqrtN n)) ∧
    ((∀ (cy : Fin 8) (cx : Fin 8),
      0 ≤ (psUpdate eightPos eightPos sqrtN (fun _ => (0, 0)) [] [predC]).2 cy cx ∧
      (psUpdate eightPos eightPos sqrtN (fun _ => (0, 0)) [] [predC]).2 cy cx ≤ 1) ∧
    (∀ (cy : Fin 8) (cx : Fin 8),
      (∀ p ∈ (psUpdate eightPos eightPos sqrtN (fun _ => (0, 0)) [] [predC]).1,
        p.active = true →
        ((p.hunt_radius : ℤ) + 5) ^ 2 < torSqMod 8 8 (cx : ℤ) (cy : ℤ) p.x p.y) →
      (psUpdate eightPos eightPos sqrtN (fun _ => (0, 0)) [] [predC]).2 cy cx = 0)) :=
  ⟨⟨eightPos, fun n => Nat.cast_nonneg (Nat.sqrt n)⟩,
    c10_threat_field eightPos eightPos sqrtN
      (fun n => Nat.cast_nonneg (Nat.sqrt n)) (fun _ => (0, 0)) [] [predC]⟩

end MDSim
